import Mathlib

/-!
Verification of the CmdMessenger protocol engine (src/CmdMessenger.h).

Bytes are modelled as natural numbers (the C `char` values as unsigned bytes);
C strings are lists of bytes, terminated implicitly (a list holds the bytes up
to, but not including, the first null).  Machine-integer results of `atoi`
style parses are wrapped explicitly where the source stores them in `int16_t`.
Pointers into the command buffer are modelled as `Option Nat` indices
(`none` being the NULL pointer).  Uninitialised members are modelled as zero,
matching the usual zeroed startup state of the target.
-/

namespace CmdMessenger

/-- Model of `isEscaped` (lines 304-314): `escaped = (*lastChar == escapeChar)`,
then `*lastChar = *currChar`, and if the current char is the escape char and it
was itself escaped, the cell is cleared to `'\0'`.  At every call site the
`escapeChar` argument equals the member `escape_character`, so a single
parameter is used for both.  Returns `(escaped, new lastChar)`. -/
def isEscaped (escapeChar lastChar currChar : Nat) : Bool × Nat :=
  let escaped := lastChar == escapeChar
  let l1 := currChar
  let l2 := if l1 == escapeChar && escaped then 0 else l1
  (escaped, l2)

/-- Model of the single-character `printEsc` (lines 328-333): bytes equal to the
field separator, command separator, escape character, or null are preceded by
the escape character. -/
def printEscChar (fs cs esc : Nat) (c : Nat) : List Nat :=
  if c = fs ∨ c = cs ∨ c = esc ∨ c = 0 then [esc, c] else [c]

/-- Model of the string `printEsc` (lines 319-323): escapes every byte of the
argument in turn (the C loop stops at the terminating null, so the input list
holds the bytes before the null). -/
def printEsc (fs cs esc : Nat) : List Nat → List Nat
  | [] => []
  | c :: rest => printEscChar fs cs esc c ++ printEsc fs cs esc rest

/-- Model of `unescape` (lines 742-755) viewed as a function on the byte list
read from `fromChar`: the loop stops at a null read in loop-condition position;
when an escape byte is read the following byte is copied literally (even a
null, in which case scanning continues past it, exactly as in the source).
The result is the list of bytes written through `toChar`; the trailing
zero-padding of vacated cells does not change that list. -/
def unescape (esc : Nat) : List Nat → List Nat
  | [] => []
  | b :: rest =>
    if b = 0 then []
    else if b = esc then
      match rest with
      | [] => []
      | c :: rest2 => c :: unescape esc rest2
    else b :: unescape esc rest

/-- The stream of `escaped` flags produced by feeding the bytes one at a time
through `isEscaped` with a running `lastByte` cell starting at `l`. -/
def scanFlags (esc : Nat) (l : Nat) : List Nat → List Bool
  | [] => []
  | b :: bs => (isEscaped esc l b).1 :: scanFlags esc (isEscaped esc l b).2 bs

/-- The value of the running `lastByte` cell after feeding a byte list. -/
def scanLastState (esc l : Nat) (bs : List Nat) : Nat :=
  bs.foldl (fun acc b => (isEscaped esc acc b).2) l

-- ------------------------------------------------------------------
-- helper lemmas for the escape codec
-- ------------------------------------------------------------------

lemma unescape_cons_esc (esc b : Nat) (l : List Nat) (hesc : esc ≠ 0) :
    unescape esc (esc :: b :: l) = b :: unescape esc l := by
  simp [unescape, hesc]

lemma unescape_cons_plain (esc b : Nat) (l : List Nat) (hb0 : b ≠ 0)
    (hbe : b ≠ esc) : unescape esc (b :: l) = b :: unescape esc l := by
  cases l with
  | nil => simp [unescape, hb0, hbe]
  | cons c rest => simp [unescape, hb0, hbe]

lemma unescape_printEsc (fs cs esc : Nat) (hesc : esc ≠ 0) :
    ∀ s : List Nat, 0 ∉ s → unescape esc (printEsc fs cs esc s) = s := by
  intro s
  induction s with
  | nil => intro _; rfl
  | cons b rest ih =>
    intro h0
    have hb0 : b ≠ 0 := fun h => h0 (by simp [h])
    have hrest : 0 ∉ rest := fun h => h0 (List.mem_cons_of_mem _ h)
    by_cases hsp : b = fs ∨ b = cs ∨ b = esc ∨ b = 0
    · have : printEsc fs cs esc (b :: rest) =
          esc :: b :: printEsc fs cs esc rest := by
        simp [printEsc, printEscChar, hsp]
      rw [this, unescape_cons_esc esc b _ hesc, ih hrest]
    · have hbe : b ≠ esc := fun h => hsp (Or.inr (Or.inr (Or.inl h)))
      have : printEsc fs cs esc (b :: rest) = b :: printEsc fs cs esc rest := by
        simp [printEsc, printEscChar, hsp]
      rw [this, unescape_cons_plain esc b _ hb0 hbe, ih hrest]

lemma scanFlags_getD_zero (esc l : Nat) (bs : List Nat) (h : 0 < bs.length) :
    (scanFlags esc l bs).getD 0 false = (l == esc) := by
  cases bs with
  | nil => simp at h
  | cons b rest => simp [scanFlags, isEscaped]

lemma scanFlags_getD_succ (esc : Nat) (hesc : esc ≠ 0) :
    ∀ (bs : List Nat) (l i : Nat), i + 1 < bs.length →
      (scanFlags esc l bs).getD (i + 1) false =
        ((bs.getD i 0 == esc) && !((scanFlags esc l bs).getD i false)) := by
  intro bs
  induction bs with
  | nil => intro l i h; simp at h
  | cons b rest ih =>
    intro l i h
    have hlen : i < rest.length := by simpa using Nat.lt_of_succ_lt_succ h
    cases i with
    | zero =>
      have hr : 0 < rest.length := hlen
      have h1 : (scanFlags esc l (b :: rest)).getD 1 false =
          (scanFlags esc (isEscaped esc l b).2 rest).getD 0 false := by
        simp [scanFlags]
      rw [h1, scanFlags_getD_zero esc _ rest hr]
      have h2 : (scanFlags esc l (b :: rest)).getD 0 false = (l == esc) := by
        simp [scanFlags, isEscaped]
      rw [h2]
      show ((if b == esc && (l == esc) then 0 else b) == esc) =
        (((b :: rest).getD 0 0 == esc) && !(l == esc))
      by_cases hb : b = esc
      · by_cases hl : l = esc
        · simp [hb, hl, Ne.symm hesc]
        · simp [hb, hl]
      · by_cases hl : l = esc
        · simp [hb, hl]
        · simp [hb, hl]
    | succ j =>
      have h3 : (scanFlags esc l (b :: rest)).getD (j + 2) false =
          (scanFlags esc (isEscaped esc l b).2 rest).getD (j + 1) false := by
        simp [scanFlags]
      have h4 : (scanFlags esc l (b :: rest)).getD (j + 1) false =
          (scanFlags esc (isEscaped esc l b).2 rest).getD j false := by
        simp [scanFlags]
      rw [h3, h4, ih _ j hlen]
      simp

-- ------------------------------------------------------------------
-- Claim C1
-- ------------------------------------------------------------------

/-- C1: for every argument byte sequence without embedded null bytes that
contains the field separator, the command separator, or the escape character,
escaping it with `printEsc` and then applying `unescape` to the emitted bytes
reproduces the original byte sequence exactly (the escape character is taken
nonzero, as in any usable configuration). -/
theorem c1_escape_roundtrip (fs cs esc : Nat) (s : List Nat)
    (hesc : esc ≠ 0) (h0 : 0 ∉ s)
    (hspecial : ∃ b ∈ s, b = fs ∨ b = cs ∨ b = esc) :
    unescape esc (printEsc fs cs esc s) = s := by
  have _ := hspecial
  exact unescape_printEsc fs cs esc hesc s h0

/-- C1 witness: the default separators (`','`, `';'`, `'/'`) and the argument
`"//,"` containing two consecutive escape bytes and a field separator. -/
theorem c1_escape_roundtrip_witness :
    unescape 47 (printEsc 44 59 47 [47, 47, 44]) = [47, 47, 44] :=
  c1_escape_roundtrip 44 59 47 [47, 47, 44] (by decide) (by decide)
    ⟨47, by decide, Or.inr (Or.inr rfl)⟩

-- ------------------------------------------------------------------
-- Claim C2
-- ------------------------------------------------------------------

/-- C2: feeding a raw byte stream through `isEscaped` with a running
`lastByte` cell starting at null: the first byte is never reported escaped; a
later byte is reported escaped exactly when the immediately preceding raw byte
was the escape byte and was not itself reported escaped (the double-escape
special case: after two escape bytes in a row the second one, being escaped
literal data, does not escape the byte after it); and the cell is always
updated to the current raw byte, except that it is cleared to null exactly
when the current byte is the escape byte and was itself escaped. -/
theorem c2_isEscaped_stream (esc : Nat) (hesc : esc ≠ 0) :
    (∀ bs : List Nat, (scanFlags esc 0 bs).getD 0 false = false) ∧
    (∀ (bs : List Nat) (i : Nat), i + 1 < bs.length →
      (scanFlags esc 0 bs).getD (i + 1) false =
        ((bs.getD i 0 == esc) && !((scanFlags esc 0 bs).getD i false))) ∧
    (∀ (bs : List Nat) (b : Nat),
      scanLastState esc 0 (bs ++ [b]) =
        if b == esc && (scanLastState esc 0 bs == esc) then 0 else b) := by
  refine ⟨?_, ?_, ?_⟩
  · intro bs
    cases bs with
    | nil => simp [scanFlags]
    | cons b rest =>
      have := scanFlags_getD_zero esc 0 (b :: rest) (by simp)
      rw [this]
      simp [Ne.symm hesc]
  · intro bs i h
    exact scanFlags_getD_succ esc hesc bs 0 i h
  · intro bs b
    simp [scanLastState, List.foldl_append, isEscaped]

/-- C2 witness: escape character `'/'` (47); on the stream `",//,"` the flags
are `[false, false, true, false]` — the second escape byte is escaped and the
byte following the double escape is not. -/
theorem c2_isEscaped_stream_witness :
    ((scanFlags 47 0 [44, 47, 47, 44]).getD 3 false =
      ((([44, 47, 47, 44] : List Nat).getD 2 0 == 47) &&
        !((scanFlags 47 0 [44, 47, 47, 44]).getD 2 false))) ∧
    scanFlags 47 0 [44, 47, 47, 44] = [false, false, true, false] :=
  ⟨(c2_isEscaped_stream 47 (by decide)).2.1 [44, 47, 47, 44] 2 (by decide),
    by decide⟩

-- ------------------------------------------------------------------
-- Engine state model
-- ------------------------------------------------------------------

/-- The private members of class `CmdMessenger` (lines 58-86) that the core
algorithms touch.  `commandBuffer` is the 192-byte command buffer; the
pointers `current` and `last` are indices into it (`none` is NULL).
`messageState` uses the source enumeration: 0 `kProccesingMessage`,
1 `kEndOfMessage`, 2 `kProcessingArguments`.  `lastCommandId` is kept as an
`Int` (the value stored comes from `readInt16Arg`). -/
structure CMState where
  startCommand : Bool
  pauseProcessing : Bool
  print_newlines : Bool
  dumped : Bool
  ArgOk : Bool
  lastCommandId : Int
  bufferIndex : Nat
  bufferLastIndex : Nat
  CmdlastChar : Nat
  ArglastChar : Nat
  commandBuffer : List Nat
  messageState : Nat
  current : Option Nat
  last : Option Nat
  field_separator : Nat
  command_separator : Nat
  escape_character : Nat
  deriving Repr, DecidableEq

/-- The state after the constructor ran `init` (lines 94-108) and `reset`
(lines 113-118): buffer length 192 (`MESSENGERBUFFERSIZE`), `bufferLastIndex`
191, cursor 0, pointers NULL, `dumped` true, `pauseProcessing` false.
Members the constructor leaves uninitialised (`startCommand`, `ArgOk`,
`messageState`, the two escape bookkeeping chars, the buffer contents) are
modelled as zero/false. -/
def initState (fs cs esc : Nat) : CMState :=
  { startCommand := false
    pauseProcessing := false
    print_newlines := false
    dumped := true
    ArgOk := false
    lastCommandId := 0
    bufferIndex := 0
    bufferLastIndex := 191
    CmdlastChar := 0
    ArglastChar := 0
    commandBuffer := List.replicate 192 0
    messageState := 0
    current := none
    last := none
    field_separator := fs
    command_separator := cs
    escape_character := esc }

/-- The engine constructed with the default separators `','`, `';'`, `'/'`. -/
def defState : CMState := initState 44 59 47

/-- Model of `processLine` (lines 125-145).  Sets `messageState` to
`kProccesingMessage`, runs `isEscaped` against the frame-scoped
`CmdlastChar` cell, and either terminates the frame on an unescaped command
separator (emitting `kEndOfMessage` only for a non-empty frame, then
`reset()`) or appends the byte, resetting when the cursor reaches
`bufferLastIndex`.  The `current = commandBuffer` assignment of the source is
immediately overwritten by `reset()`, which sets both pointers to NULL; the
model keeps the net effect.  The returned message state is the
`messageState` field of the result. -/
def processLine (st : CMState) (c : Nat) : CMState :=
  let st0 := { st with messageState := 0 }
  let e := isEscaped st0.escape_character st0.CmdlastChar c
  let st1 := { st0 with CmdlastChar := e.2 }
  if c = st1.command_separator ∧ e.1 = false then
    let buf := st1.commandBuffer.set st1.bufferIndex 0
    if st1.bufferIndex > 0 then
      { st1 with commandBuffer := buf, messageState := 1, CmdlastChar := 0,
                 bufferIndex := 0, current := none, last := none, dumped := true }
    else
      { st1 with commandBuffer := buf,
                 bufferIndex := 0, current := none, last := none, dumped := true }
  else
    let buf := st1.commandBuffer.set st1.bufferIndex c
    let bi := st1.bufferIndex + 1
    if bi ≥ st1.bufferLastIndex then
      { st1 with commandBuffer := buf,
                 bufferIndex := 0, current := none, last := none, dumped := true }
    else
      { st1 with commandBuffer := buf, bufferIndex := bi }

/-- The byte at buffer index `p` (reads past the list give 0; the source
never reads out of bounds on the executions considered here). -/
def bufGet (buf : List Nat) (p : Nat) : Nat := buf.getD p 0

/-- The C string stored at index `p` of the buffer: bytes up to the first
null.  Fuel-bounded by the buffer length. -/
def cStringAux (buf : List Nat) (p : Nat) : Nat → List Nat
  | 0 => []
  | fuel + 1 =>
    let c := bufGet buf p
    if c = 0 then [] else c :: cStringAux buf (p + 1) fuel

/-- The C string at index `p` of `buf`. -/
def cString (buf : List Nat) (p : Nat) : List Nat :=
  cStringAux buf p buf.length

/-- Model of `findNext` (lines 215-235): scan from index `p` for the first
position holding an unescaped null or unescaped field separator, running
`isEscaped` against a fresh `ArglastChar` cell (the source resets the member
to `'\0'` on entry; the `delim` parameter is ignored by the source, which
compares against the member `field_separator`).  Returns the offset and the
final value of the `ArglastChar` cell.  Fuel-bounded: the scan always stops
within two positions past the end of the buffer. -/
def findNextAux (fs esc : Nat) (buf : List Nat) (p lastChar : Nat) :
    Nat → Nat × Nat
  | 0 => (0, lastChar)
  | fuel + 1 =>
    let c := bufGet buf p
    let e := isEscaped esc lastChar c
    if c = 0 ∧ e.1 = false then (0, e.2)
    else if c = fs ∧ e.1 = false then (0, e.2)
    else
      let r := findNextAux fs esc buf (p + 1) e.2 fuel
      (r.1 + 1, r.2)

/-- `findNext` on the engine state, scanning the command buffer from `p`. -/
def findNext (st : CMState) (p : Nat) : Nat × Nat :=
  findNextAux st.field_separator st.escape_character st.commandBuffer p 0
    (st.commandBuffer.length + 2)

/-- The leading-delimiter strip loop of `split_r` (lines 280-282):
`while (findNext(str, delim) == 0 && *str) str++;`.  Returns the index at
which the loop stops.  Fuel-bounded (the loop always stops at or before the
first null, hence within the buffer length plus one). -/
def stripDelims (st : CMState) (p : Nat) : Nat → Nat
  | 0 => p
  | fuel + 1 =>
    if (findNext st p).1 = 0 ∧ bufGet st.commandBuffer p ≠ 0 then
      stripDelims st (p + 1) fuel
    else p

/-- Model of `split_r` (lines 273-299).  `strArg = none` models a NULL first
argument, in which case the source uses `*nextp` — the member `last`.  If that
is also NULL the source dereferences a null pointer (undefined behaviour);
the model reads 0 there and returns NULL, leaving the state unchanged.
Otherwise: strip leading delimiters; if the stop position holds a null,
return NULL (the source leaves `*nextp` unwritten on this path); else
terminate the token by overwriting the delimiter with a null (only when the
delimiter position is not already a null), store the following position in
`last`, and return the token start.  `ArglastChar` receives the final cell
value of the last `findNext` scan, as in the source. -/
def split_r (st : CMState) (strArg : Option Nat) : Option Nat × CMState :=
  let p0 : Option Nat := match strArg with
    | none => st.last
    | some p => some p
  match p0 with
  | none => (none, st)
  | some p =>
    let p1 := stripDelims st p (st.commandBuffer.length + 2)
    let r := findNext st p1
    if bufGet st.commandBuffer p1 = 0 then
      (none, { st with ArglastChar := r.2 })
    else
      let q := p1 + r.1
      if bufGet st.commandBuffer q ≠ 0 then
        (some p1, { st with ArglastChar := r.2,
                            commandBuffer := st.commandBuffer.set q 0,
                            last := some (q + 1) })
      else
        (some p1, { st with ArglastChar := r.2, last := some q })

/-- Model of `next` (lines 398-416).  On `kProccesingMessage` return false;
on `kEndOfMessage` point `temppointer` at the command buffer and enter
`kProcessingArguments`, falling through to the default case, which calls
`split_r` only when `dumped` is set, and — when `current` is non-NULL — sets
`dumped` to true and returns true. -/
def next (st : CMState) : Bool × CMState :=
  if st.messageState = 0 then (false, st)
  else
    let st1 := if st.messageState = 1 then { st with messageState := 2 } else st
    let tp : Option Nat := if st.messageState = 1 then some 0 else none
    let r := if st1.dumped then split_r st1 tp else (st1.current, st1)
    let st2 := { r.2 with current := r.1 }
    if r.1.isSome then (true, { st2 with dumped := true }) else (false, st2)

-- ------------------------------------------------------------------
-- Typed argument reads
-- ------------------------------------------------------------------

/-- Whitespace test of the C `atoi` / `isspace`. -/
def isSpaceC (c : Nat) : Bool :=
  c = 32 || c = 9 || c = 10 || c = 11 || c = 12 || c = 13

/-- Decimal digit accumulator of `atoi`: consumes leading digits. -/
def atoiDigits (acc : Int) : List Nat → Int
  | [] => acc
  | c :: rest =>
    if 48 ≤ c ∧ c ≤ 57 then atoiDigits (acc * 10 + ((c : Int) - 48)) rest
    else acc

/-- Model of the C library `atoi`/`atol` on a byte string: skip whitespace,
optional sign, leading digits (overflow is not modelled; the tokens appearing
in the theorems below are small). -/
def atoiList (s : List Nat) : Int :=
  match s.dropWhile isSpaceC with
  | 43 :: r => atoiDigits 0 r
  | 45 :: r => - atoiDigits 0 r
  | r => atoiDigits 0 r

/-- Wrap to the `int16_t` range (the return type of `readInt16Arg`). -/
def toInt16 (v : Int) : Int := (v + 32768) % 65536 - 32768

/-- Wrap to the `int32_t` range (the return type of `readInt32Arg`). -/
def toInt32 (v : Int) : Int := (v + 2147483648) % 4294967296 - 2147483648

/-- The token currently pointed to by `current` ([] at NULL). -/
def tokenAt (st : CMState) : List Nat :=
  match st.current with
  | none => []
  | some p => cString st.commandBuffer p

/-- Model of `readInt16Arg` (lines 611-619): on a successful `next()` set
`dumped` and `ArgOk` and return `atoi(current)`; otherwise clear `ArgOk` and
return 0. -/
def readInt16Arg (st : CMState) : Int × CMState :=
  let r := next st
  if r.1 then
    (toInt16 (atoiList (tokenAt r.2)), { r.2 with dumped := true, ArgOk := true })
  else
    (0, { r.2 with ArgOk := false })

/-- Model of `readInt32Arg` (lines 624-632), same shape with `atol`. -/
def readInt32Arg (st : CMState) : Int × CMState :=
  let r := next st
  if r.1 then
    (toInt32 (atoiList (tokenAt r.2)), { r.2 with dumped := true, ArgOk := true })
  else
    (0, { r.2 with ArgOk := false })

/-- Model of `readCharArg` (lines 637-645): returns `current[0]`, or 0 with
`ArgOk` cleared when no token is available. -/
def readCharArg (st : CMState) : Nat × CMState :=
  let r := next st
  if r.1 then
    (bufGet r.2.commandBuffer (r.2.current.getD 0),
      { r.2 with dumped := true, ArgOk := true })
  else
    (0, { r.2 with ArgOk := false })

/-- Model of `readFloatArg` (lines 650-659).  The value of `strtod` on a
token is outside this repository (a libc collaborator), so it is a parameter
`parse`; the failure branch returns the literal 0 of the source. -/
def readFloatArg (parse : List Nat → Rat) (st : CMState) : Rat × CMState :=
  let r := next st
  if r.1 then
    (parse (tokenAt r.2), { r.2 with dumped := true, ArgOk := true })
  else
    (0, { r.2 with ArgOk := false })

/-- Model of `readDoubleArg` (lines 664-672); identical control flow. -/
def readDoubleArg (parse : List Nat → Rat) (st : CMState) : Rat × CMState :=
  let r := next st
  if r.1 then
    (parse (tokenAt r.2), { r.2 with dumped := true, ArgOk := true })
  else
    (0, { r.2 with ArgOk := false })

/-- Model of `readStringArg` (lines 678-686): returns the `current` pointer
on success; the failure branch of the source is `return '\0';`, which in a
`char *` function is the NULL pointer, modelled as `none`. -/
def readStringArg (st : CMState) : Option Nat × CMState :=
  let r := next st
  if r.1 then
    (r.2.current, { r.2 with dumped := true, ArgOk := true })
  else
    (none, { r.2 with ArgOk := false })

/-- Overwrite the head of `dst` with `src` (bounded by the length of `dst`),
modelling writes through a caller-supplied `char *`. -/
def listOverwrite (dst src : List Nat) : List Nat :=
  (src ++ dst.drop src.length).take dst.length

/-- Model of `copyStringArg` (lines 692-702).  The caller buffer is the list
`dest`, whose length is the `size` argument.  Success runs
`strlcpy(string, current, size)`: copy at most `size - 1` bytes and null
terminate (when `size > 0`); failure clears `ArgOk` and stores a null in
`dest[0]` when `size` is nonzero. -/
def copyStringArg (st : CMState) (dest : List Nat) : List Nat × CMState :=
  let size := dest.length
  let r := next st
  if r.1 then
    let written := if size = 0 then [] else (tokenAt r.2).take (size - 1) ++ [0]
    (listOverwrite dest written, { r.2 with dumped := true, ArgOk := true })
  else
    (if 0 < size then dest.set 0 0 else dest, { r.2 with ArgOk := false })

/-- Model of `compareStringArg` (lines 707-720): when a token is available,
`strcmp(string, current) == 0` — byte equality of the two C strings — yields
1 with `dumped` and `ArgOk` set; a mismatch yields 0 with `ArgOk` cleared;
with no token available the source returns 0 without touching any flag. -/
def compareStringArg (st : CMState) (s : List Nat) : Nat × CMState :=
  let r := next st
  if r.1 then
    if tokenAt r.2 = s then (1, { r.2 with dumped := true, ArgOk := true })
    else (0, { r.2 with ArgOk := false })
  else (0, r.2)

/-- The copy loop of `unescape` (lines 744-750) acting on the buffer itself:
`toChar`/`fromChar` are indices; an escape byte advances `fromChar` before the
copy.  Returns the buffer and the final positions.  Fuel-bounded (`fromChar`
strictly increases and the loop stops at a null). -/
def unescLoop (esc : Nat) (buf : List Nat) (toI fromI : Nat) :
    Nat → List Nat × Nat × Nat
  | 0 => (buf, toI, fromI)
  | fuel + 1 =>
    let c := bufGet buf fromI
    if c = 0 then (buf, toI, fromI)
    else
      let fI := if c = esc then fromI + 1 else fromI
      let c2 := bufGet buf fI
      unescLoop esc (buf.set toI c2) (toI + 1) (fI + 1) fuel

/-- The zero-padding loop of `unescape` (lines 752-754). -/
def padZeros (buf : List Nat) (toI fromI : Nat) : List Nat :=
  (List.range (fromI - toI)).foldl (fun b i => b.set (toI + i) 0) buf

/-- `unescape` applied in place to the buffer starting at index `p`
(the call made by `readBin` on `current`). -/
def unescapeInPlace (esc : Nat) (buf : List Nat) (p : Nat) : List Nat :=
  let r := unescLoop esc buf p p (buf.length + 2)
  padZeros r.1 r.2.1 r.2.2

/-- Model of `readBinArg<T>` (lines 725-734) for a type of width `n` bytes:
on success, `readBin` unescapes the token in place and copies `n` raw bytes
from it; on failure, `empty<T>()` returns an `n`-byte zero-filled value.
Neither branch touches `ArgOk`. -/
def readBinArg (n : Nat) (st : CMState) : List Nat × CMState :=
  let r := next st
  if r.1 then
    let p := r.2.current.getD 0
    let buf2 := unescapeInPlace r.2.escape_character r.2.commandBuffer p
    ((List.range n).map (fun i => bufGet buf2 (p + i)),
      { r.2 with commandBuffer := buf2, dumped := true })
  else
    (List.replicate n 0, r.2)

-- ------------------------------------------------------------------
-- Dispatch loop and acknowledgment protocol
-- ------------------------------------------------------------------

/-- Model of `handleMessage` (lines 151-155): read the leading token as the
command id and invoke the attached callback.  The callback itself is a
collaborator; its invocation is recorded by the dispatch log of `feedStep`. -/
def handleMessage (st : CMState) : CMState :=
  let r := readInt16Arg st
  { r.2 with lastCommandId := r.1 }

/-- One byte of the `feedinSerialData` inner loop (lines 382-391): run
`processLine`; on `kEndOfMessage` record the completed frame (the command
buffer's leading C string, read before `handleMessage` tokenizes it) in the
dispatch log and run `handleMessage`. -/
def feedStep (acc : CMState × List (List Nat)) (b : Nat) :
    CMState × List (List Nat) :=
  let st1 := processLine acc.1 b
  if st1.messageState = 1 then
    (handleMessage st1, acc.2 ++ [cString st1.commandBuffer 0])
  else (st1, acc.2)

/-- Model of `feedinSerialData` (lines 372-393) on a list of available
transport bytes: when not paused, every available byte is fed through
`processLine` in order (the intermediate 512-byte stream buffer is a
pass-through and does not change the byte order).  Returns the final state
and the dispatch log: one entry, holding the completed frame, per callback
dispatch. -/
def feedinSerialData (st : CMState) (bs : List Nat) :
    CMState × List (List Nat) :=
  if st.pauseProcessing then (st, []) else bs.foldl feedStep (st, [])

/-- Model of `checkForAck` (lines 175-192).  The `return false` at the bottom
of the `while` body makes the source consume exactly one byte per call: if a
byte is available, feed it to `processLine`; only if that completes a frame,
read the leading integer and report whether it equals the expected id with
`ArgOk` set; in every other case report false.  Returns
(result, state, remaining stream). -/
def checkForAck (ackCommand : Int) (st : CMState) (stream : List Nat) :
    Bool × CMState × List Nat :=
  match stream with
  | [] => (false, st, [])
  | b :: rest =>
    let st1 := processLine st b
    if st1.messageState = 1 then
      let r := readInt16Arg st1
      (decide (ackCommand = r.1 ∧ r.2.ArgOk = true), r.2, rest)
    else (false, st1, rest)

/-- Model of `blockedTillReply` (lines 161-170).  The clock collaborator
(`millis`) is abstracted to one tick per polling iteration, so the `timeout`
argument is the number of `checkForAck` polls: the loop runs while time
remains and no acknowledgment has been seen, and returns the last
`checkForAck` result. -/
def blockedTillReply (timeout : Nat) (ackCmdId : Int) (st : CMState)
    (stream : List Nat) : Bool × CMState × List Nat :=
  match timeout with
  | 0 => (false, st, stream)
  | t + 1 =>
    let r := checkForAck ackCmdId st stream
    if r.1 then (true, r.2.1, r.2.2)
    else blockedTillReply t ackCmdId r.2.1 r.2.2

/-- Model of `sendCmdEnd` (lines 535-548).  Returns
(ackReply, bytes written to the transport, new state, remaining inbound
stream).  When a command build is in progress it writes the command
separator (plus `"\r\n"` when newline printing is on) and, only when an
acknowledgment was requested, runs `blockedTillReply`; in every case it then
clears `pauseProcessing` and `startCommand` and returns `ackReply`. -/
def sendCmdEnd (reqAc : Bool) (ackCmdId : Int) (timeout : Nat)
    (st : CMState) (stream : List Nat) :
    Bool × List Nat × CMState × List Nat :=
  if st.startCommand then
    let out := [st.command_separator] ++ (if st.print_newlines then [13, 10] else [])
    if reqAc then
      let r := blockedTillReply timeout ackCmdId st stream
      (r.1, out, { r.2.1 with pauseProcessing := false, startCommand := false },
        r.2.2)
    else
      (false, out, { st with pauseProcessing := false, startCommand := false },
        stream)
  else
    (false, [], { st with pauseProcessing := false, startCommand := false },
      stream)

-- ------------------------------------------------------------------
-- Scientific formatting: the rounding step of printSci
-- ------------------------------------------------------------------

/-- Model of the digit clamp, rounding and carry step of `printSci`
(lines 782-783 and 799-805), taking the normalized mantissa `g` as the exact
rational `n / d` (with `0 ≤ n`, `0 < d`; `printSci` reaches this code after
replacing `f` by `|f|`, so the mantissa is nonnegative) in place of the C
`double`: clamp `digits` to 6, compute `multiplier = 10^digits`,
`whole = long(g)` and `part = long((g - whole) * multiplier + 0.5)`, and
carry (`whole++; part = 0`) exactly when `part == 100`.  `long(x)` on a
nonnegative value truncates downward, and
`(g - whole) * multiplier + 1/2 = (2*(n - whole*d)*multiplier + d) / (2*d)`
exactly, so `part` is that fraction's integer quotient.  Returns the final
(whole, part) pair handed to `sprintf`. -/
def printSciRound (n : Int) (d : Nat) (digits : Nat) : Int × Int :=
  let dd := if digits > 6 then 6 else digits
  let multiplier : Int := 10 ^ dd
  let whole : Int := n.tdiv (d : Int)
  let part : Int := (2 * (n - whole * (d : Int)) * multiplier + (d : Int)).tdiv (2 * (d : Int))
  if part = 100 then (whole + 1, 0) else (whole, part)

-- ------------------------------------------------------------------
-- Frame reader invariants
-- ------------------------------------------------------------------

/-- `processLine` keeps the cursor strictly below `bufferLastIndex` (191) and
the buffer length at 192: both separator handling and overflow end in
`reset()` (cursor 0), and an append only keeps a cursor that stayed below
`bufferLastIndex`. -/
lemma processLine_inv (st : CMState) (c : Nat)
    (h1 : st.bufferLastIndex = 191) (h2 : st.bufferIndex < 191)
    (h3 : st.commandBuffer.length = 192) :
    (processLine st c).bufferLastIndex = 191 ∧
    (processLine st c).bufferIndex < 191 ∧
    (processLine st c).commandBuffer.length = 192 := by
  unfold processLine
  dsimp only
  split
  · split <;> simp_all [List.length_set]
  · split
    · simp_all [List.length_set]
    · simp_all [List.length_set]
      omega

/-- `split_r` only touches `ArglastChar`, the buffer contents (by a length
preserving `set`) and the `last`/`current` bookkeeping. -/
lemma split_r_fields (st : CMState) (a : Option Nat) :
    (split_r st a).2.bufferLastIndex = st.bufferLastIndex ∧
    (split_r st a).2.bufferIndex = st.bufferIndex ∧
    (split_r st a).2.commandBuffer.length = st.commandBuffer.length ∧
    (split_r st a).2.ArgOk = st.ArgOk := by
  unfold split_r
  dsimp only
  cases a with
  | none =>
    cases st.last with
    | none => exact ⟨rfl, rfl, rfl, rfl⟩
    | some p => dsimp only; split <;> [skip; split] <;> simp [List.length_set]
  | some p => dsimp only; split <;> [skip; split] <;> simp [List.length_set]

/-- `next` preserves the cursor, the buffer length, `bufferLastIndex` and
`ArgOk`. -/
lemma next_fields (st : CMState) :
    (next st).2.bufferLastIndex = st.bufferLastIndex ∧
    (next st).2.bufferIndex = st.bufferIndex ∧
    (next st).2.commandBuffer.length = st.commandBuffer.length ∧
    (next st).2.ArgOk = st.ArgOk := by
  have h0 := split_r_fields { st with messageState := 2 } (some 0)
  have h1 := split_r_fields st none
  unfold next
  dsimp only
  by_cases hm0 : st.messageState = 0
  · simp [hm0]
  · by_cases hm1 : st.messageState = 1
    · cases hd : st.dumped
      · simp only [hm0, hm1, hd, if_true, if_false, ite_true, ite_false,
          Bool.false_eq_true]
        by_cases hc : st.current.isSome = true <;> simp [hc]
      · simp only [hm0, hm1, hd, if_true, if_false, ite_true, ite_false]
        by_cases hc : (split_r { st with messageState := 2 } (some 0)).1.isSome = true <;>
          simp_all [hc]
    · cases hd : st.dumped
      · simp only [hm0, hm1, hd, if_true, if_false, ite_true, ite_false,
          Bool.false_eq_true]
        by_cases hc : st.current.isSome = true <;> simp [hc]
      · simp only [hm0, hm1, hd, if_true, if_false, ite_true, ite_false]
        by_cases hc : (split_r st none).1.isSome = true <;> simp_all [hc]

/-- `handleMessage` additionally only rewrites `lastCommandId`, `dumped`,
`ArgOk` and `current`. -/
lemma handleMessage_inv (st : CMState)
    (h1 : st.bufferLastIndex = 191) (h2 : st.bufferIndex < 191)
    (h3 : st.commandBuffer.length = 192) :
    (handleMessage st).bufferLastIndex = 191 ∧
    (handleMessage st).bufferIndex < 191 ∧
    (handleMessage st).commandBuffer.length = 192 := by
  have h := next_fields st
  unfold handleMessage readInt16Arg
  dsimp only
  split <;> simp_all

/-- One step of the dispatch loop preserves the frame-buffer invariant. -/
lemma feedStep_inv (acc : CMState × List (List Nat)) (b : Nat)
    (h1 : acc.1.bufferLastIndex = 191) (h2 : acc.1.bufferIndex < 191)
    (h3 : acc.1.commandBuffer.length = 192) :
    (feedStep acc b).1.bufferLastIndex = 191 ∧
    (feedStep acc b).1.bufferIndex < 191 ∧
    (feedStep acc b).1.commandBuffer.length = 192 := by
  have hp := processLine_inv acc.1 b h1 h2 h3
  unfold feedStep
  dsimp only
  split
  · exact handleMessage_inv _ hp.1 hp.2.1 hp.2.2
  · exact hp

/-- The frame-buffer invariant holds after draining any byte list. -/
lemma foldl_feedStep_inv (bs : List Nat) :
    ∀ (acc : CMState × List (List Nat)),
      acc.1.bufferLastIndex = 191 → acc.1.bufferIndex < 191 →
      acc.1.commandBuffer.length = 192 →
      (bs.foldl feedStep acc).1.bufferLastIndex = 191 ∧
      (bs.foldl feedStep acc).1.bufferIndex < 191 ∧
      (bs.foldl feedStep acc).1.commandBuffer.length = 192 := by
  induction bs with
  | nil => intro acc h1 h2 h3; exact ⟨h1, h2, h3⟩
  | cons b rest ih =>
    intro acc h1 h2 h3
    have h := feedStep_inv acc b h1 h2 h3
    simpa using ih (feedStep acc b) h.1 h.2.1 h.2.2

set_option maxRecDepth 20000

-- ------------------------------------------------------------------
-- Claim C3
-- ------------------------------------------------------------------

/-- C3 counterexample: the transport stream `"7;1;"` whose first completed
frame has leading id 7, different from the expected acknowledgment id 1.  The
claim says the wait terminates immediately as not acknowledged; instead
`blockedTillReply` keeps polling after the mismatched frame and accepts the
later matching frame `"1;"` within the same timeout window, returning
acknowledged. -/
theorem c3_counterexample :
    (blockedTillReply 10 1 defState [55, 59, 49, 59]).1 = true := by decide

/-- C3 amended: a completed frame whose leading id does not match makes that
`checkForAck` poll return false (with exactly one byte of the stream
consumed), but the wait does not terminate: `blockedTillReply` continues
polling, so on `"7;1;"` the later matching frame is accepted within the same
timeout window, while on `"7;"` alone the wait runs to its timeout and
returns not acknowledged. -/
theorem c3_amended_wait_continues :
    (∀ (ackId : Int) (st : CMState) (b : Nat) (rest : List Nat),
        (processLine st b).messageState = 1 →
        (checkForAck ackId st (b :: rest)).1 =
          decide (ackId = (readInt16Arg (processLine st b)).1 ∧
            (readInt16Arg (processLine st b)).2.ArgOk = true) ∧
        (checkForAck ackId st (b :: rest)).2.2 = rest) ∧
    (blockedTillReply 10 1 defState [55, 59, 49, 59]).1 = true ∧
    (blockedTillReply 10 1 defState [55, 59]).1 = false := by
  refine ⟨?_, by decide, by decide⟩
  intro ackId st b rest h
  simp [checkForAck, h]

/-- C3 amended witness: after feeding `'7'`, the byte `';'` completes a
frame, and the `checkForAck` poll reports the id comparison, consuming only
that byte. -/
theorem c3_amended_wait_continues_witness :
    (checkForAck 1 (processLine defState 55) [59, 49]).1 =
      decide (1 = (readInt16Arg (processLine (processLine defState 55) 59)).1 ∧
        (readInt16Arg (processLine (processLine defState 55) 59)).2.ArgOk = true) ∧
    (checkForAck 1 (processLine defState 55) [59, 49]).2.2 = [49] :=
  c3_amended_wait_continues.1 1 (processLine defState 55) 59 [49] (by decide)

-- ------------------------------------------------------------------
-- Claim C4
-- ------------------------------------------------------------------

/-- C4: feeding the command separator while the frame buffer is empty
(`bufferIndex = 0`) leaves `processLine` in `kProccesingMessage` — never
`kEndOfMessage` — and triggers no dispatch, whatever the rest of the state;
and on the concrete stream `";;5,x;"` with the default separators exactly one
dispatch occurs, for the frame `"5,x"`, with command id 5. -/
theorem c4_empty_frame_absorbed :
    (∀ (st : CMState) (log : List (List Nat)), st.bufferIndex = 0 →
        (processLine st st.command_separator).messageState = 0 ∧
        (feedStep (st, log) st.command_separator).2 = log) ∧
    (feedinSerialData defState [59, 59, 53, 44, 120, 59]).2 = [[53, 44, 120]] ∧
    (feedinSerialData defState [59, 59, 53, 44, 120, 59]).1.lastCommandId = 5 := by
  refine ⟨?_, by decide, by decide⟩
  intro st log h
  have hm : (processLine st st.command_separator).messageState = 0 := by
    unfold processLine
    dsimp only
    split
    · split
      · omega
      · rfl
    · split <;> rfl
  refine ⟨hm, ?_⟩
  unfold feedStep
  dsimp only
  rw [if_neg (by rw [hm]; exact one_ne_zero ∘ Eq.symm)]

/-- C4 witness: the freshly initialised engine has an empty frame buffer, and
its command separator is absorbed without a dispatch. -/
theorem c4_empty_frame_absorbed_witness :
    (processLine defState defState.command_separator).messageState = 0 ∧
    (feedStep (defState, []) defState.command_separator).2 = [] :=
  c4_empty_frame_absorbed.1 defState [] rfl

-- ------------------------------------------------------------------
-- Claim C5
-- ------------------------------------------------------------------

/-- Engine state after draining 100 `'a'` bytes from the initial state. -/
def c5state1 : CMState × List (List Nat) :=
  ({ defState with
       commandBuffer := List.replicate 100 97 ++ List.replicate 92 0,
       bufferIndex := 100,
       CmdlastChar := 97 }, [])

/-- Engine state after 191 `'a'` bytes: the write of the 191st byte pushed
the cursor to `bufferLastIndex`, forcing the overflow `reset()`. -/
def c5state2 : CMState × List (List Nat) :=
  ({ defState with
       commandBuffer := List.replicate 191 97 ++ [0],
       bufferIndex := 0,
       CmdlastChar := 97 }, [])

/-- Engine state after 200 `'a'` bytes: the 9 bytes after the overflow reset
have accumulated as a fresh frame. -/
def c5state3 : CMState × List (List Nat) :=
  ({ defState with
       commandBuffer := List.replicate 191 97 ++ [0],
       bufferIndex := 9,
       CmdlastChar := 97 }, [])

/-- Engine state after 200 `'a'` bytes and the command separator: the
residual 9-byte tail was dispatched as a frame of its own. -/
def c5state4 : CMState × List (List Nat) :=
  ({ defState with
       commandBuffer := List.replicate 9 97 ++ [0] ++ List.replicate 181 97 ++ [0],
       bufferIndex := 0,
       CmdlastChar := 0,
       messageState := 2,
       current := some 0,
       last := some 9,
       dumped := true,
       ArgOk := true,
       lastCommandId := 0 }, [List.replicate 9 97])

/-- Engine state after additionally draining `"5,x;"`: the follow-up frame
parsed correctly from the reset buffer, command id 5. -/
def c5state5 : CMState × List (List Nat) :=
  ({ defState with
       commandBuffer := [53, 0, 120, 0] ++ List.replicate 5 97 ++ [0] ++
         List.replicate 181 97 ++ [0],
       bufferIndex := 0,
       CmdlastChar := 0,
       ArglastChar := 44,
       messageState := 2,
       current := some 0,
       last := some 2,
       dumped := true,
       ArgOk := true,
       lastCommandId := 5 }, [List.replicate 9 97, [53, 44, 120]])

lemma c5run1 : (List.replicate 100 97).foldl feedStep (defState, []) = c5state1 := by
  decide

lemma c5run2 : (List.replicate 91 97).foldl feedStep c5state1 = c5state2 := by
  decide

lemma c5run3 : (List.replicate 9 97).foldl feedStep c5state2 = c5state3 := by
  decide

lemma c5run4 : [59].foldl feedStep c5state3 = c5state4 := by decide

lemma c5run5 : [53, 44, 120, 59].foldl feedStep c5state4 = c5state5 := by decide

lemma c5feed_eq (bs : List Nat) :
    feedinSerialData defState bs = bs.foldl feedStep (defState, []) := by
  simp [feedinSerialData, defState, initState]

lemma c5drain_short :
    feedinSerialData defState (List.replicate 200 97 ++ [59]) = c5state4 := by
  rw [c5feed_eq]
  have h : (List.replicate 200 97 : List Nat) ++ [59] =
      List.replicate 100 97 ++ (List.replicate 91 97 ++
        (List.replicate 9 97 ++ [59])) := by
    simp [← List.replicate_add]
  rw [h, List.foldl_append, c5run1, List.foldl_append, c5run2,
    List.foldl_append, c5run3, c5run4]

lemma c5drain_full :
    feedinSerialData defState
      (List.replicate 200 97 ++ [59] ++ [53, 44, 120, 59]) = c5state5 := by
  rw [c5feed_eq]
  have h : (List.replicate 200 97 : List Nat) ++ [59] ++ [53, 44, 120, 59] =
      List.replicate 100 97 ++ (List.replicate 91 97 ++
        (List.replicate 9 97 ++ ([59] ++ [53, 44, 120, 59]))) := by
    simp [← List.replicate_add]
  rw [h, List.foldl_append, c5run1, List.foldl_append, c5run2,
    List.foldl_append, c5run3, List.foldl_append, c5run4, c5run5]

/-- C5 counterexample: an overlong command — 200 `'a'` bytes followed by the
command separator — fed from the initial state.  The claim says no
`FrameComplete` is ever emitted for it, i.e. the dispatch log stays empty;
instead the bytes left after the overflow reset (the last 9 `'a'`s)
accumulate as a fresh frame and its terminator dispatches them. -/
theorem c5_counterexample :
    (feedinSerialData defState (List.replicate 200 97 ++ [59])).2 =
      [List.replicate 9 97] ∧
    (feedinSerialData defState (List.replicate 200 97 ++ [59])).2 ≠ [] := by
  rw [c5drain_short]
  exact ⟨rfl, by decide⟩

/-- C5 amended: for every byte stream fed from the initial state the frame
buffer write cursor stays strictly below `bufferLastIndex` (191, hence never
exceeds capacity−1) and the 192-byte buffer length is preserved, so every
buffer write stays in bounds; on overflow the 191 accumulated bytes are
dropped by a reset with no `FrameComplete` containing them, but the residual
tail of the overlong command forms a fresh frame which is dispatched at the
command's terminator (so a `FrameComplete` does occur while the overlong
command is being fed); the next frame after the overlong command (`"5,x;"`)
is then parsed correctly from the reset buffer, with command id 5. -/
theorem c5_amended_overflow :
    (∀ bs : List Nat,
        (feedinSerialData defState bs).1.bufferIndex < 191 ∧
        (feedinSerialData defState bs).1.commandBuffer.length = 192) ∧
    (feedinSerialData defState
        (List.replicate 200 97 ++ [59] ++ [53, 44, 120, 59])).2 =
      [List.replicate 9 97, [53, 44, 120]] ∧
    (feedinSerialData defState
        (List.replicate 200 97 ++ [59] ++ [53, 44, 120, 59])).1.lastCommandId = 5 := by
  refine ⟨?_, by rw [c5drain_full]; rfl, by rw [c5drain_full]; rfl⟩
  intro bs
  rw [c5feed_eq]
  have h := foldl_feedStep_inv bs (defState, []) rfl (by decide) (by decide)
  exact ⟨h.2.1, h.2.2⟩

-- ------------------------------------------------------------------
-- Claim C6
-- ------------------------------------------------------------------

/-- Engine state after the frame `"5,a,b"` completed and its id token was
consumed by the dispatch layer. -/
def c6state : CMState := (feedinSerialData defState [53, 44, 97, 44, 98, 59]).1

/-- C6: the source's `next()` sets `dumped` to true itself after locating a
token (line 411), so the consumed flag is not left to the typed reads: after
the id of frame `"5,a,b"` was consumed, one `next()` call locates token
`"a"` (buffer index 2) and already sets `dumped`; a second `next()` without
any intervening typed read then advances to token `"b"` (index 4), and a
typed read issued at that point returns `"b"` — the located but never
retrieved token `"a"` is skipped. -/
theorem c6_next_sets_dumped_bug :
    (next c6state).1 = true ∧
    (next c6state).2.current = some 2 ∧
    cString (next c6state).2.commandBuffer 2 = [97] ∧
    (next c6state).2.dumped = true ∧
    (next (next c6state).2).1 = true ∧
    (next (next c6state).2).2.current = some 4 ∧
    (readStringArg (next c6state).2).1 = some 4 ∧
    cString (readStringArg (next c6state).2).2.commandBuffer 4 = [98] := by
  decide

-- ------------------------------------------------------------------
-- Claim C7
-- ------------------------------------------------------------------

/-- Engine state after frame `"5"` completed and its only token (the id) was
consumed: no further argument is available, and the last typed read left
`ArgOk` set. -/
def c7state : CMState := (feedinSerialData defState [53, 59]).1

/-- C7 counterexample: with no token available and `ArgOk` still true from
the previous successful read, a failed `readBinArg` returns the zero-filled
value but leaves `ArgOk` true — it neither sets nor clears the flag, so the
caller cannot detect the failure — and a failed `readStringArg` returns the
NULL pointer (`return '\0';` in a `char *` function), not an empty string. -/
theorem c7_counterexample :
    (next c7state).1 = false ∧
    c7state.ArgOk = true ∧
    (readBinArg 4 c7state).1 = [0, 0, 0, 0] ∧
    (readBinArg 4 c7state).2.ArgOk = true ∧
    (readStringArg c7state).1 = none := by decide

/-- C7 amended: `next` never touches `ArgOk`; every typed read except the
binary read and the missing-token path of the compare read sets or clears
`ArgOk` on every call; a failed integer or character read returns 0, a
failed floating read returns 0.0, a failed string read returns the NULL
pointer (not an empty string), a failed copy read stores an empty string in
the caller buffer, a failed compare read returns 0 leaving the whole state
as `next` left it, and a failed binary read returns a zero-filled value,
also leaving `ArgOk` untouched; on success every read sets `ArgOk` true
except the compare read (which sets it to the comparison result) and the
binary read (which leaves it unchanged). -/
theorem c7_amended_flags_sentinels (st : CMState) (parse : List Nat → Rat)
    (dest s : List Nat) (n : Nat) :
    ((next st).2.ArgOk = st.ArgOk) ∧
    ((next st).1 = false →
      readInt16Arg st = (0, { (next st).2 with ArgOk := false }) ∧
      readInt32Arg st = (0, { (next st).2 with ArgOk := false }) ∧
      readCharArg st = (0, { (next st).2 with ArgOk := false }) ∧
      readFloatArg parse st = (0, { (next st).2 with ArgOk := false }) ∧
      readDoubleArg parse st = (0, { (next st).2 with ArgOk := false }) ∧
      readStringArg st = (none, { (next st).2 with ArgOk := false }) ∧
      copyStringArg st dest =
        (if 0 < dest.length then dest.set 0 0 else dest,
          { (next st).2 with ArgOk := false }) ∧
      compareStringArg st s = (0, (next st).2) ∧
      readBinArg n st = (List.replicate n 0, (next st).2)) ∧
    ((next st).1 = true →
      (readInt16Arg st).2.ArgOk = true ∧
      (readInt32Arg st).2.ArgOk = true ∧
      (readCharArg st).2.ArgOk = true ∧
      (readFloatArg parse st).2.ArgOk = true ∧
      (readDoubleArg parse st).2.ArgOk = true ∧
      (readStringArg st).2.ArgOk = true ∧
      (copyStringArg st dest).2.ArgOk = true ∧
      (compareStringArg st s).2.ArgOk = decide (tokenAt (next st).2 = s) ∧
      (readBinArg n st).2.ArgOk = st.ArgOk) := by
  have hA := (next_fields st).2.2.2
  refine ⟨hA, ?_, ?_⟩
  · intro h
    exact ⟨by simp [readInt16Arg, h], by simp [readInt32Arg, h],
      by simp [readCharArg, h], by simp [readFloatArg, h],
      by simp [readDoubleArg, h], by simp [readStringArg, h],
      by simp [copyStringArg, h], by simp [compareStringArg, h],
      by simp [readBinArg, h]⟩
  · intro h
    refine ⟨by simp [readInt16Arg, h], by simp [readInt32Arg, h],
      by simp [readCharArg, h], by simp [readFloatArg, h],
      by simp [readDoubleArg, h], by simp [readStringArg, h],
      by simp [copyStringArg, h], ?_, by simp [readBinArg, h, hA]⟩
    by_cases ht : tokenAt (next st).2 = s
    · simp [compareStringArg, h, ht]
    · simp [compareStringArg, h, ht]

/-- C7 amended witness: the failure facts evaluated at the exhausted frame
`"5"`, with the libc parser instantiated by the zero function, a zero-length
caller buffer, the empty compare string and binary width 4. -/
theorem c7_amended_flags_sentinels_witness :
    readInt16Arg c7state = (0, { (next c7state).2 with ArgOk := false }) ∧
    readInt32Arg c7state = (0, { (next c7state).2 with ArgOk := false }) ∧
    readCharArg c7state = (0, { (next c7state).2 with ArgOk := false }) ∧
    readFloatArg (fun _ => 0) c7state = (0, { (next c7state).2 with ArgOk := false }) ∧
    readDoubleArg (fun _ => 0) c7state = (0, { (next c7state).2 with ArgOk := false }) ∧
    readStringArg c7state = (none, { (next c7state).2 with ArgOk := false }) ∧
    copyStringArg c7state [] = ([], { (next c7state).2 with ArgOk := false }) ∧
    compareStringArg c7state [] = (0, (next c7state).2) ∧
    readBinArg 4 c7state = (List.replicate 4 0, (next c7state).2) :=
  (c7_amended_flags_sentinels c7state (fun _ => 0) [] [] 4).2.1 (by decide)

-- ------------------------------------------------------------------
-- Claim C8
-- ------------------------------------------------------------------

/-- Engine state after the frame `"5,abc,xyz"` completed and its id token
was consumed by the dispatch layer. -/
def c8state : CMState :=
  (feedinSerialData defState [53, 44, 97, 98, 99, 44, 120, 121, 122, 59]).1

/-- C8: `compareStringArg` succeeds (returns 1) exactly on byte equality, and
on mismatch it returns 0 — but because `next()` already set `dumped`, the
mismatching token is consumed anyway: comparing the next token `"abc"`
against `"zzz"` fails, and the subsequent typed string read returns the
following token `"xyz"` (buffer index 6), not `"abc"` again. -/
theorem c8_compare_mismatch_consumes :
    (compareStringArg c8state [97, 98, 99]).1 = 1 ∧
    (compareStringArg c8state [122, 122, 122]).1 = 0 ∧
    (compareStringArg c8state [122, 122, 122]).2.ArgOk = false ∧
    (compareStringArg c8state [122, 122, 122]).2.current = some 2 ∧
    cString (compareStringArg c8state [122, 122, 122]).2.commandBuffer 2 =
      [97, 98, 99] ∧
    (readStringArg (compareStringArg c8state [122, 122, 122]).2).1 = some 6 ∧
    cString (readStringArg (compareStringArg c8state [122, 122, 122]).2).2.commandBuffer 6 =
      [120, 121, 122] := by decide

-- ------------------------------------------------------------------
-- Claim C9
-- ------------------------------------------------------------------

/-- C9: the carry test of `printSci` is the hard-coded `part == 100`, not
`part == 10^digits`.  At mantissa 9.9999999 with 6 digits the rounded
fraction reaches `10^6 = 1000000`, yet no carry happens and the fraction
field overflows its 6-digit width (the claim requires the carry to
(10, 0)); at mantissa 9.09951 with 3 digits the rounded fraction is 100,
far from `10^3`, yet the code carries to (10, 0) (the claim requires
(9, 100), printed `9.100E...`). -/
theorem c9_carry_condition_bug :
    printSciRound 99999999 10000000 6 = (9, 1000000) ∧
    printSciRound 909951 100000 3 = (10, 0) := by
  exact ⟨by decide, by decide⟩

-- ------------------------------------------------------------------
-- Claim C10
-- ------------------------------------------------------------------

/-- C10: calling `sendCmdEnd` while no command build is in progress writes
nothing to the transport, performs no acknowledgment wait (the inbound
stream is untouched), returns false, and still clears both
`pauseProcessing` and `startCommand` — in particular a paused receive loop
is re-enabled. -/
theorem c10_sendCmdEnd_idle (reqAc : Bool) (ackCmdId : Int) (timeout : Nat)
    (st : CMState) (stream : List Nat) (h : st.startCommand = false) :
    sendCmdEnd reqAc ackCmdId timeout st stream =
      (false, [], { st with pauseProcessing := false, startCommand := false },
        stream) := by
  simp [sendCmdEnd, h]

/-- C10 witness: a paused engine with no build in progress, an acknowledgment
request and a pending inbound stream: nothing is written, false is returned,
the stream is untouched and the pause is lifted. -/
theorem c10_sendCmdEnd_idle_witness :
    (sendCmdEnd true 1 100 { defState with pauseProcessing := true } [49, 59]).1 = false ∧
    (sendCmdEnd true 1 100 { defState with pauseProcessing := true } [49, 59]).2.1 = [] ∧
    (sendCmdEnd true 1 100 { defState with pauseProcessing := true } [49, 59]).2.2.1.pauseProcessing = false ∧
    (sendCmdEnd true 1 100 { defState with pauseProcessing := true } [49, 59]).2.2.1.startCommand = false ∧
    (sendCmdEnd true 1 100 { defState with pauseProcessing := true } [49, 59]).2.2.2 = [49, 59] := by
  rw [c10_sendCmdEnd_idle true 1 100 { defState with pauseProcessing := true } [49, 59] rfl]
  exact ⟨rfl, rfl, rfl, rfl, rfl⟩

end CmdMessenger
